import Mathlib

/-!
Verification of the lzeroutils POS-data server/client against its
natural-language specification.  The Python sources are shallowly embedded:
pure helpers become Lean functions, the filesystem is passed explicitly as
data, Python exceptions become `Except`/`Option`, and library routines that
are not part of the repository (`datetime.fromisoformat`, `strptime`,
`float`, `pyproj`) are either abstracted as function parameters or modelled
on the restricted inputs the proofs use.
-/

/-- The hour-letter alphabet of `utils.py`:
`letters = 'abcdefghijklmnopqrstuvwx'`. -/
def lettersList : List Char :=
  ['a', 'b', 'c', 'd', 'e', 'f', 'g', 'h', 'i', 'j', 'k', 'l',
   'm', 'n', 'o', 'p', 'q', 'r', 's', 't', 'u', 'v', 'w', 'x']

/-- Embedding of `_hour_to_letter` (utils.py, lines 184-197): returns
`letters[hour]` when `0 <= hour <= 23`, otherwise raises (`none`). -/
def hour_to_letter (hour : Int) : Option Char :=
  if 0 ≤ hour ∧ hour ≤ 23 then lettersList.get? hour.toNat else none

/-- Index of the first occurrence of `needle` as a contiguous sublist of
`hay`; `none` when `needle` does not occur.  This is the semantics of the
Python pair `needle in hay` / `hay.index(needle)` on strings, which the
source uses in `_letter_to_hour` (note: Python `in` on strings is substring
containment, not membership in the 24 characters). -/
def subIndex (hay needle : List Char) : Option Nat :=
  if needle.isPrefixOf hay then some 0
  else
    match hay with
    | [] => none
    | _ :: t => (subIndex t needle).map (· + 1)

/-- Embedding of `_letter_to_hour` (utils.py, lines 200-213):
`if letter in letters: return letters.index(letter)` else raise.
Python `letter in letters` is substring containment, and
`letters.index(letter)` is the first index at which the substring occurs,
so both are captured by `subIndex`. -/
def letter_to_hour (s : String) : Option Nat :=
  subIndex lettersList s.data

/-- The 24 valid single-letter strings are exactly characters of the
alphabet; used to state what the spec calls "one of the 24 single lowercase
letters a..x". -/
def isSingleHourLetter (s : String) : Bool :=
  match s.data with
  | [c] => lettersList.contains c
  | _ => false

theorem subIndex_singleton (c : Char) (hay : List Char) :
    subIndex hay [c] = none ↔ c ∉ hay := by
  induction hay with
  | nil =>
    constructor
    · intro _ hmem
      exact absurd hmem (List.not_mem_nil c)
    · intro _
      rfl
  | cons h t ih =>
    by_cases hch : c = h
    · subst hch
      have hsome : subIndex (c :: t) [c] = some 0 := by
        unfold subIndex
        rw [if_pos]
        show ([c].isPrefixOf (c :: t)) = true
        simp [List.isPrefixOf]
      rw [hsome]
      simp
    · have hpref : ([c].isPrefixOf (h :: t)) = false := by
        simp [List.isPrefixOf]
        intro hc
        exact absurd hc hch
      have hunf : subIndex (h :: t) [c] = (subIndex t [c]).map (· + 1) := by
        conv_lhs => unfold subIndex
        rw [if_neg (by simp [hpref])]
      rw [hunf]
      constructor
      · intro hmapnone hmem
        have hnone : subIndex t [c] = none := by
          cases hsub : subIndex t [c] with
          | none => rfl
          | some k => rw [hsub] at hmapnone; simp at hmapnone
        rcases List.mem_cons.mp hmem with hh | ht
        · exact hch hh
        · exact (ih.mp hnone) ht
      · intro hmem
        have hnt : c ∉ t := fun ht => hmem (List.mem_cons_of_mem h ht)
        rw [ih.mpr hnt]
        rfl

/-- Round-trip over the in-range hours, verified by evaluation. -/
theorem letterHour_roundtrip_nat :
    ∀ n : Nat, n < 24 →
      (hour_to_letter (n : Int)).bind
        (fun c => letter_to_hour (String.mk [c])) = some n := by decide

/-- C3 (counterexample): the claim says `_letter_to_hour` fails for every
string that is not one of the 24 single letters a..x; but Python `in` on
strings is substring containment, so the two-character string "ab" is
accepted and mapped to 0 instead of raising. -/
theorem letterHourCounterexample :
    letter_to_hour "ab" = some 0 ∧ isSingleHourLetter "ab" = false := by
  decide

/-- C3 (amended): hour-to-letter and letter-to-hour round-trip on [0,23],
and `_hour_to_letter` fails for every integer outside [0,23]; but
`_letter_to_hour` fails exactly for strings that are not contiguous
substrings of "abcdefghijklmnopqrstuvwx": a single-character string fails
iff its character is not one of a..x, while every multi-character
contiguous run of the alphabet (and the empty string) is accepted and
mapped to the start index of its first occurrence. -/
theorem letterHourAmended :
    (∀ h : Int, 0 ≤ h → h ≤ 23 →
      (hour_to_letter h).bind
        (fun c => letter_to_hour (String.mk [c])) = some h.toNat)
    ∧ (∀ h : Int, h < 0 ∨ 23 < h → hour_to_letter h = none)
    ∧ (∀ c : Char, letter_to_hour (String.mk [c]) = none ↔ c ∉ lettersList)
    ∧ (∀ i : Nat, i < 24 → ∀ j : Nat, j < 25 → i < j →
        letter_to_hour (String.mk ((lettersList.drop i).take (j - i)))
          = some i)
    ∧ letter_to_hour "" = some 0 := by
  refine ⟨?_, ?_, ?_, ?_, by decide⟩
  · intro h h0 h23
    have hn : h.toNat < 24 := by omega
    have := letterHour_roundtrip_nat h.toNat hn
    rwa [Int.toNat_of_nonneg h0] at this
  · intro h hout
    simp only [hour_to_letter]
    rw [if_neg (by omega)]
  · intro c
    exact subIndex_singleton c lettersList
  · decide

/-- C3 (witness): the amended round-trip instantiated at hour 5. -/
theorem letterHourWitness :
    (hour_to_letter 5).bind
      (fun c => letter_to_hour (String.mk [c])) = some ((5 : Int).toNat) :=
  letterHourAmended.1 5 (by decide) (by decide)

/-- Insertion of one value into a sorted rational list (helper for the
embedding of Python `sorted`). -/
def insSorted (t : ℚ) : List ℚ → List ℚ
  | [] => [t]
  | x :: xs => if t ≤ x then t :: x :: xs else x :: insSorted t xs

/-- Embedding of Python `sorted` on a list of rationals (ascending,
insertion sort). -/
def sortQ (l : List ℚ) : List ℚ := l.foldr insSorted []

/-- The consecutive time deltas of `convert_to_streams` (utils.py,
lines 70-71): `[(t2 - t1) for t1, t2 in zip(times[:-1], times[1:])]`.
Timestamps are modelled as rationals (seconds). -/
def deltasOf (times : List ℚ) : List ℚ :=
  List.zipWith (fun a b => b - a) times times.tail

/-- The nominal sampling interval of `convert_to_streams` (utils.py,
line 72): `sorted(dts)[len(dts)//2]`. -/
def medianOf (dts : List ℚ) : ℚ := (sortQ dts).getD (dts.length / 2) 0

/-- A displacement chunk as returned by `_extract_displacement_chunk`.
The ISO starttime string is modelled by the start timestamp itself. -/
structure DispChunk where
  starttime : ℚ
  delta : ℚ
  x_data : List ℚ
  y_data : List ℚ
  z_data : List ℚ
deriving DecidableEq

/-- Embedding of `_extract_displacement_chunk` (utils.py, lines 96-122):
selects the rows of `indices` out of x/y/z and records the start time and
the nominal interval. -/
def extract_displacement_chunk (x y z times : List ℚ) (indices : List Nat)
    (dt : ℚ) : DispChunk :=
  { starttime := times.getD (indices.headD 0) 0
    delta := dt
    x_data := indices.map (fun i => x.getD i 0)
    y_data := indices.map (fun i => y.getD i 0)
    z_data := indices.map (fun i => z.getD i 0) }

/-- The chunking loop of `convert_to_streams` (utils.py, lines 74-91),
tracking only the `indices` lists handed to extraction: walking the deltas
with running index `i` (starting at 1) and current chunk `cur`, a chunk is
closed exactly when `abs(delta - dt_median) > dt_median * 0.5`; the final
`if indices:` emits the trailing chunk when nonempty. -/
def splitGo (med : ℚ) (i : Nat) (cur : List Nat) : List ℚ → List (List Nat)
  | [] => if cur.isEmpty then [] else [cur]
  | d :: rest =>
      if |d - med| > med / 2 then cur :: splitGo med (i + 1) [i] rest
      else splitGo med (i + 1) (cur ++ [i]) rest

/-- The full index decomposition computed by the loop of
`convert_to_streams`: it starts with `indices = [0]` at `i = 1`. -/
def splitIndices (med : ℚ) (dts : List ℚ) : List (List Nat) :=
  splitGo med 1 [0] dts

/-- Embedding of `convert_to_streams` (utils.py, lines 31-93), restricted
to its chunking core: the UTM projection of lon/lat (external `pyproj`) is
abstracted by taking the projected coordinate lists `x`, `y`, `z` directly,
and ISO-string timestamps by the rational list `times`.  Fewer than two
samples raise `ValueError`. -/
def convert_to_streams (x y z times : List ℚ) :
    Except String (List DispChunk) :=
  if times.length < 2 then
    .error "At least two samples required to compute dt."
  else
    .ok ((splitIndices (medianOf (deltasOf times)) (deltasOf times)).map
      (fun idx =>
        extract_displacement_chunk x y z times idx
          (medianOf (deltasOf times))))

/-- The positions (in 1-based delta indexing, i.e. the sample index of the
second sample of the pair) at which the delta deviates from the median by
more than half the median: exactly the places where the code closes a
chunk. -/
def breakIdxs (med : ℚ) (i : Nat) : List ℚ → List Nat
  | [] => []
  | d :: rest =>
      if |d - med| > med / 2 then i :: breakIdxs med (i + 1) rest
      else breakIdxs med (i + 1) rest

theorem splitGo_flatten (med : ℚ) :
    ∀ (ds : List ℚ) (i : Nat) (cur : List Nat), cur ≠ [] →
      (splitGo med i cur ds).flatten = cur ++ List.range' i ds.length := by
  intro ds
  induction ds with
  | nil =>
    intro i cur hcur
    rw [splitGo, if_neg (by simpa using hcur)]
    simp
  | cons d rest ih =>
    intro i cur hcur
    rw [splitGo]
    by_cases hbr : |d - med| > med / 2
    · rw [if_pos hbr]
      rw [List.flatten_cons, ih (i + 1) [i] (by simp)]
      simp [List.range'_succ, List.length_cons]
    · rw [if_neg hbr]
      rw [ih (i + 1) (cur ++ [i]) (by simp)]
      simp [List.range'_succ, List.length_cons]

theorem splitGo_ne_nil (med : ℚ) :
    ∀ (ds : List ℚ) (i : Nat) (cur : List Nat), cur ≠ [] →
      ∀ L ∈ splitGo med i cur ds, L ≠ [] := by
  intro ds
  induction ds with
  | nil =>
    intro i cur hcur L hL
    rw [splitGo, if_neg (by simpa using hcur)] at hL
    simp at hL
    exact hL ▸ hcur
  | cons d rest ih =>
    intro i cur hcur L hL
    rw [splitGo] at hL
    by_cases hbr : |d - med| > med / 2
    · rw [if_pos hbr] at hL
      rcases List.mem_cons.mp hL with h | h
      · exact h ▸ hcur
      · exact ih (i + 1) [i] (by simp) L h
    · rw [if_neg hbr] at hL
      exact ih (i + 1) (cur ++ [i]) (by simp) L hL

theorem splitGo_heads (med : ℚ) :
    ∀ (ds : List ℚ) (i : Nat) (cur : List Nat), cur ≠ [] →
      (splitGo med i cur ds).map List.head?
        = cur.head? :: (breakIdxs med i ds).map some := by
  intro ds
  induction ds with
  | nil =>
    intro i cur hcur
    rw [splitGo, if_neg (by simpa using hcur)]
    simp [breakIdxs]
  | cons d rest ih =>
    intro i cur hcur
    rw [splitGo, breakIdxs]
    by_cases hbr : |d - med| > med / 2
    · rw [if_pos hbr, if_pos hbr]
      rw [List.map_cons, ih (i + 1) [i] (by simp)]
      rfl
    · rw [if_neg hbr, if_neg hbr]
      rw [ih (i + 1) (cur ++ [i]) (by simp)]
      rcases cur with _ | ⟨a, as⟩
      · exact absurd rfl hcur
      · rfl

/-- C4: on an input series with at least two samples, `convert_to_streams`
uses the median consecutive delta as the nominal interval (each chunk's
`delta` field equals it), closes a chunk exactly at positions where the
delta deviates from the median by more than half of it (the chunk heads
are position 0 followed by exactly the break positions), always emits the
trailing chunk (every chunk is nonempty), and the chunk index lists
partition the input index range in order with no overlap and no gap;
fewer than two samples is an error. -/
theorem convertStreamsSpec (x y z times : List ℚ) :
    (times.length < 2 →
      convert_to_streams x y z times
        = .error "At least two samples required to compute dt.")
    ∧ (2 ≤ times.length →
      convert_to_streams x y z times
        = .ok ((splitIndices (medianOf (deltasOf times))
              (deltasOf times)).map
            (fun idx => extract_displacement_chunk x y z times idx
              (medianOf (deltasOf times))))
      ∧ (splitIndices (medianOf (deltasOf times)) (deltasOf times)).flatten
          = List.range times.length
      ∧ (∀ L ∈ splitIndices (medianOf (deltasOf times)) (deltasOf times),
          L ≠ [])
      ∧ (splitIndices (medianOf (deltasOf times))
            (deltasOf times)).map List.head?
          = some 0
            :: (breakIdxs (medianOf (deltasOf times)) 1
                  (deltasOf times)).map some
      ∧ ∀ c ∈ (splitIndices (medianOf (deltasOf times))
            (deltasOf times)).map
            (fun idx => extract_displacement_chunk x y z times idx
              (medianOf (deltasOf times))),
          c.delta = medianOf (deltasOf times)) := by
  constructor
  · intro h
    rw [convert_to_streams, if_pos h]
  · intro h2
    have hlen : (deltasOf times).length = times.length - 1 := by
      simp [deltasOf]
    obtain ⟨m, hm⟩ : ∃ m, times.length = m + 2 := ⟨times.length - 2, by omega⟩
    refine ⟨?_, ?_, ?_, ?_, ?_⟩
    · rw [convert_to_streams, if_neg (by omega)]
    · rw [splitIndices,
        splitGo_flatten (medianOf (deltasOf times)) (deltasOf times) 1 [0]
          (by simp),
        hlen, hm]
      simp [List.range_eq_range', List.range'_succ]
    · intro L hL
      exact splitGo_ne_nil (medianOf (deltasOf times)) (deltasOf times) 1 [0]
        (by simp) L hL
    · rw [splitIndices,
        splitGo_heads (medianOf (deltasOf times)) (deltasOf times) 1 [0]
          (by simp)]
      rfl
    · intro c hc
      rcases List.mem_map.mp hc with ⟨idx, _, rfl⟩
      rfl

/-- C4 (witness): the partition property instantiated on the two-sample
series with timestamps 0 and 1. -/
theorem convertStreamsWitness :
    (splitIndices (medianOf (deltasOf [0, 1])) (deltasOf [0, 1])).flatten
      = List.range ([0, 1] : List ℚ).length :=
  ((convertStreamsSpec [] [] [] [0, 1]).2 (by decide)).2.1

/-- Decidable equality for `Except`, used to evaluate concrete runs. -/
instance {ε α : Type _} [DecidableEq ε] [DecidableEq α] :
    DecidableEq (Except ε α) := fun x y =>
  match x, y with
  | .error a, .error b =>
    if h : a = b then isTrue (by rw [h])
    else isFalse (fun hxy => h (Except.error.inj hxy))
  | .error _, .ok _ => isFalse (fun h => Except.noConfusion h)
  | .ok _, .error _ => isFalse (fun h => Except.noConfusion h)
  | .ok a, .ok b =>
    if h : a = b then isTrue (by rw [h])
    else isFalse (fun hxy => h (Except.ok.inj hxy))

/-- State of an archive file on disk: missing, present but unreadable
(`os.path.isfile` true yet `open` raises), or readable with its lines. -/
inductive FileState where
  | absent
  | unreadable
  | readable (lines : List String)
deriving DecidableEq

/-- Python whitespace characters (the set `str.strip`/`str.split` use). -/
def wsChar (c : Char) : Bool :=
  c == ' ' || c == '\t' || c == '\n' || c == '\r' || c == '\x0b' || c == '\x0c'

/-- Python `str.strip()` with no argument: remove leading and trailing
whitespace. -/
def pyStrip (s : String) : String :=
  String.mk (((s.data.dropWhile (fun c => wsChar c)).reverse.dropWhile
    (fun c => wsChar c)).reverse)

/-- Tokeniser for Python `str.split()` with no argument: split on runs of
whitespace, dropping empty pieces; `cur` holds the current token
reversed. -/
def tokensGo (cur : List Char) : List Char → List (List Char)
  | [] => if cur = [] then [] else [cur.reverse]
  | c :: rest =>
    if wsChar c then
      if cur = [] then tokensGo [] rest else cur.reverse :: tokensGo [] rest
    else tokensGo (c :: cur) rest

/-- Python `str.split()` with no argument. -/
def pySplit (s : String) : List String :=
  (tokensGo [] s.data).map String.mk

/-- Python `str.replace('/', '-')`: a one-character pattern replace is a
character map. -/
def replSlash (s : String) : String :=
  String.mk (s.data.map (fun c => if c = '/' then '-' else c))

/-- Splitting a character list at every occurrence of `sep` (Python
`str.split(sep)` for a one-character separator: the empty string yields
one empty piece). -/
def splitOnChar (sep : Char) : List Char → List (List Char)
  | [] => [[]]
  | c :: rest =>
    if c = sep then [] :: splitOnChar sep rest
    else
      match splitOnChar sep rest with
      | [] => [[c]]
      | g :: gs => (c :: g) :: gs

/-- Embedding of `LZEROServer._parse_line_time` (server.py, lines
325-342): split the stripped line on whitespace, normalise the date
separator, join date and time with `T` and parse; any failure (missing
tokens or unparsable datetime) yields `None`.  The stdlib
`datetime.fromisoformat` is the abstract parameter `iso`; timestamps are
seconds as `Nat`. -/
def parse_line_time (iso : String → Option Nat) (line : String) :
    Option Nat :=
  let parts := pySplit (pyStrip line)
  match parts.get? 0, parts.get? 1 with
  | some p0, some p1 => iso (replSlash p0 ++ "T" ++ p1)
  | _, _ => none

/-- The retention test of `_get_pos_data` (server.py, line 286):
`line_time and start_dt <= line_time <= end_dt`. -/
def keepLine (parse : String → Option Nat) (s e : Nat) (l : String) :
    Bool :=
  match parse l with
  | some t => decide (s ≤ t ∧ t ≤ e)
  | none => false

/-- The iterates of the hour loop of `_get_pos_data` (server.py, lines
274-288): `current_dt = start_dt; while current_dt <= end_dt: ...;
current_dt += timedelta(hours=1)` visits exactly the timestamps
`start + 3600*k` for `k = 0 .. (end - start) / 3600`. -/
def visitedSeconds (s e : Nat) : List Nat :=
  if s ≤ e then
    (List.range ((e - s) / 3600 + 1)).map (fun k => s + 3600 * k)
  else []

/-- The hour buckets those iterates address: a datetime's
(year, doy, hour) triple is in bijection with its hour truncation, modelled
as `t / 3600`. -/
def visitedBuckets (s e : Nat) : List Nat :=
  (visitedSeconds s e).map (· / 3600)

/-- One iteration body of `_get_pos_data`: resolve the bucket's file; an
absent file is skipped, a present file is read (raising if unreadable) and
filtered by the retention test. -/
def bucketResult (fs : Nat → FileState) (parse : String → Option Nat)
    (s e c : Nat) : Except Unit (List String) :=
  match fs (c / 3600) with
  | .absent => .ok []
  | .unreadable => .error ()
  | .readable ls => .ok (ls.filter (keepLine parse s e))

/-- Effectful map over a list in `Except`, aborting at the first error
(the behaviour of a Python loop in which an iteration may raise). -/
def mapE (f : α → Except ε β) : List α → Except ε (List β)
  | [] => .ok []
  | a :: as =>
    match f a with
    | .error err => .error err
    | .ok b =>
      match mapE f as with
      | .error err => .error err
      | .ok bs => .ok (b :: bs)

/-- Embedding of `LZEROServer._get_pos_data` (server.py, lines 261-290):
run the hour loop, concatenating the retained lines of each visited
bucket in order; an unreadable file aborts with the raised error. -/
def get_pos_data (fs : Nat → FileState) (parse : String → Option Nat)
    (s e : Nat) : Except Unit (List String) :=
  (mapE (bucketResult fs parse s e) (visitedSeconds s e)).map List.flatten

theorem mapE_ok {f : α → Except ε β} {g : α → β} :
    ∀ {l : List α}, (∀ a ∈ l, f a = .ok (g a)) →
      mapE f l = .ok (l.map g) := by
  intro l
  induction l with
  | nil => intro _; rfl
  | cons a as ih =>
    intro h
    have ha := h a (List.mem_cons_self a as)
    have has := ih (fun b hb => h b (List.mem_cons_of_mem a hb))
    rw [mapE]
    rw [ha, has]
    rfl

theorem mapE_congr {f f' : α → Except ε β} :
    ∀ {l : List α}, (∀ a ∈ l, f a = f' a) → mapE f l = mapE f' l := by
  intro l
  induction l with
  | nil => intro _; rfl
  | cons a as ih =>
    intro h
    rw [mapE, mapE, h a (List.mem_cons_self a as),
      ih (fun b hb => h b (List.mem_cons_of_mem a hb))]

theorem mapE_ok_mem {f : α → Except ε β} :
    ∀ {l : List α} {ys : List β}, mapE f l = .ok ys →
      ∀ b ∈ ys, ∃ a ∈ l, f a = .ok b := by
  intro l
  induction l with
  | nil =>
    intro ys h b hb
    rw [mapE] at h
    cases h
    exact absurd hb (List.not_mem_nil b)
  | cons a as ih =>
    intro ys h b hb
    rw [mapE] at h
    cases hfa : f a with
    | error err => rw [hfa] at h; exact absurd h (by simp)
    | ok v =>
      rw [hfa] at h
      cases hrest : mapE f as with
      | error err => rw [hrest] at h; exact absurd h (by simp)
      | ok vs =>
        rw [hrest] at h
        have hys : ys = v :: vs := (Except.ok.inj h).symm
        subst hys
        rcases List.mem_cons.mp hb with hbv | hbs
        · exact ⟨a, List.mem_cons_self a as, hbv ▸ hfa⟩
        · rcases ih hrest b hbs with ⟨a', ha', hfa'⟩
          exact ⟨a', List.mem_cons_of_mem a ha', hfa'⟩

/-- Archive for the C1 failing input: only the hour-12 bucket exists and
holds one line. -/
def fsC1 : Nat → FileState :=
  fun b => if b = 12 then .readable ["L1"] else .absent

/-- Line-time parser for the C1 failing input: the single line stamps
12:05:00 (43500 s). -/
def parseC1 : String → Option Nat :=
  fun l => if l = "L1" then some 43500 else none

/-- C1: evaluation of the hour loop at the failing input.  For the query
start 10:30:00 (37800 s) and end 12:10:00 (43800 s) the loop steps from the
raw start, visiting only buckets 10 and 11, although the hour truncations
of start and end are 10 and 12, so bucket 12 is never visited and its
in-range line at 12:05:00 is lost. -/
theorem getPosDataHourLoopBug :
    visitedBuckets 37800 43800 = [10, 11]
    ∧ 37800 / 3600 = 10
    ∧ 43800 / 3600 = 12
    ∧ 12 ∉ visitedBuckets 37800 43800
    ∧ fsC1 12 = .readable ["L1"]
    ∧ parseC1 "L1" = some 43500
    ∧ 37800 ≤ 43500
    ∧ 43500 ≤ 43800
    ∧ get_pos_data fsC1 parseC1 37800 43800 = .ok [] := by
  refine ⟨by decide, by decide, by decide, by decide, by decide, by decide,
    by decide, by decide, rfl⟩

/-- The retained lines of one visited bucket (the per-bucket effect of
`_get_pos_data` when no read error occurs): an absent file contributes
nothing, a readable file contributes its lines whose parsed timestamp lies
in the inclusive range. -/
def okLines (fs : Nat → FileState) (parse : String → Option Nat)
    (s e c : Nat) : List String :=
  match fs (c / 3600) with
  | .readable ls => ls.filter (keepLine parse s e)
  | _ => []

/-- C5: over the visited hour buckets (none unreadable), `_get_pos_data`
skips absent files without error and retains a line iff its parsed leading
timestamp lies in [start, end] inclusive (unparsable lines are dropped by
the retention test); the result is the in-order concatenation of the
per-bucket retained lines, and the visited buckets are strictly
increasing, so the output is ordered by ascending bucket then original
in-file line order. -/
theorem getPosDataBucketFilter (fs : Nat → FileState)
    (parse : String → Option Nat) (s e : Nat)
    (hread : ∀ c ∈ visitedSeconds s e, fs (c / 3600) ≠ .unreadable) :
    get_pos_data fs parse s e
      = .ok (((visitedSeconds s e).map (okLines fs parse s e)).flatten)
    ∧ List.Pairwise (· < ·) (visitedBuckets s e) := by
  constructor
  · have hmap : ∀ c ∈ visitedSeconds s e,
        bucketResult fs parse s e c = .ok (okLines fs parse s e c) := by
      intro c hc
      cases hfs : fs (c / 3600) with
      | absent => rw [bucketResult, okLines, hfs]
      | unreadable => exact absurd hfs (hread c hc)
      | readable ls => rw [bucketResult, okLines, hfs]
    rw [get_pos_data, mapE_ok hmap]
    rfl
  · by_cases hse : s ≤ e
    · rw [visitedBuckets, visitedSeconds, if_pos hse, List.map_map]
      have hdiv : ((· / 3600) ∘ fun k => s + 3600 * k)
          = fun k => s / 3600 + k := by
        funext k
        simp only [Function.comp]
        exact Nat.add_mul_div_left s k (by norm_num)
      rw [hdiv]
      exact List.Pairwise.map _ (fun a b hab => by omega)
        (List.pairwise_lt_range _)
    · rw [visitedBuckets, visitedSeconds, if_neg hse]
      simp

/-- Archive for the C5 witness: bucket 1 readable with two lines, others
absent. -/
def fsC5 : Nat → FileState :=
  fun b => if b = 1 then .readable ["A", "B"] else .absent

/-- Line parser for the C5 witness: only "A" parses, at 3700 s. -/
def parseC5 : String → Option Nat :=
  fun l => if l = "A" then some 3700 else none

/-- C5 (witness): the bucket characterisation instantiated on a two-bucket
query with one readable file. -/
theorem getPosDataBucketFilterWitness :
    get_pos_data fsC5 parseC5 3600 7200
      = .ok (((visitedSeconds 3600 7200).map
          (okLines fsC5 parseC5 3600 7200)).flatten)
    ∧ List.Pairwise (· < ·) (visitedBuckets 3600 7200) :=
  getPosDataBucketFilter fsC5 parseC5 3600 7200 (by decide)

/-- Python `int()` on a directory name, restricted to unsigned decimal
digit strings (the archive layout's year and day-of-year names); any other
name raises `ValueError` (`none`). -/
def pyIntName (s : String) : Option Nat :=
  match s.data with
  | [] => none
  | ds =>
    ds.foldl
      (fun acc c =>
        acc.bind (fun n =>
          if '0' ≤ c ∧ c ≤ '9' then some (10 * n + (c.toNat - '0'.toNat))
          else none))
      (some 0)

/-- The `hour_map` dictionary of `list_available_time` (server.py, lines
145-146): exact single-letter keys a..x mapped to 0..23 (dict membership,
unlike the substring test of `_letter_to_hour`). -/
def hourLookup (s : String) : Option Nat :=
  match s.data with
  | [c] => lettersList.findIdx? (· == c)
  | _ => none

/-- A directory entry at the hour level of the archive tree. -/
structure HourEntry where
  name : String
  isDir : Bool
deriving DecidableEq

/-- A directory entry at the day-of-year level, with its hour entries. -/
structure DoyEntry where
  name : String
  isDir : Bool
  hours : List HourEntry
deriving DecidableEq

/-- A directory entry at the year level, with its day entries. -/
structure YearEntry where
  name : String
  isDir : Bool
  doys : List DoyEntry
deriving DecidableEq

/-- The hour-level loop of `list_available_time` (server.py, lines
162-172): skip non-directories and names outside `hour_map`, then compute
`int(year)`, `int(doy)` and the bucket datetime - any of which raises
(`ValueError` on a non-numeric name, or an unbuildable date) and escalates.
The stdlib `strptime` composed with `_doy_to_ymd_str` is the abstract
parameter `mkTime`. -/
def collectHours (yname dname : String)
    (mkTime : Nat → Nat → Nat → Option Nat) :
    List HourEntry → Except Unit (List Nat)
  | [] => .ok []
  | e :: rest =>
    if e.isDir then
      match hourLookup e.name with
      | none => collectHours yname dname mkTime rest
      | some h =>
        match pyIntName yname, pyIntName dname with
        | some y, some d =>
          match mkTime y d h with
          | some t =>
            match collectHours yname dname mkTime rest with
            | .error err => .error err
            | .ok ts => .ok (t :: ts)
          | none => .error ()
        | _, _ => .error ()
    else collectHours yname dname mkTime rest

/-- The day-of-year-level loop of `list_available_time` (server.py, lines
158-161): skip non-directories, recurse into the hour entries. -/
def collectDoys (yname : String) (mkTime : Nat → Nat → Nat → Option Nat) :
    List DoyEntry → Except Unit (List Nat)
  | [] => .ok []
  | d :: rest =>
    if d.isDir then
      match collectHours yname d.name mkTime d.hours with
      | .error err => .error err
      | .ok ts =>
        match collectDoys yname mkTime rest with
        | .error err => .error err
        | .ok ts' => .ok (ts ++ ts')
    else collectDoys yname mkTime rest

/-- The year-level loop of `list_available_time` (server.py, lines
154-157): skip non-directories, recurse into the day entries.  Directory
entries are supplied in the listing order (the code sorts each listing;
the collected timestamps are sorted afterwards anyway). -/
def collectTimes (mkTime : Nat → Nat → Nat → Option Nat) :
    List YearEntry → Except Unit (List Nat)
  | [] => .ok []
  | y :: rest =>
    if y.isDir then
      match collectDoys y.name mkTime y.doys with
      | .error err => .error err
      | .ok ts =>
        match collectTimes mkTime rest with
        | .error err => .error err
        | .ok ts' => .ok (ts ++ ts')
    else collectTimes mkTime rest

/-- Insertion of one value into a sorted list of timestamps (helper for
the embedding of `times.sort()`). -/
def insSortedNat (t : Nat) : List Nat → List Nat
  | [] => [t]
  | x :: xs => if t ≤ x then t :: x :: xs else x :: insSortedNat t xs

/-- Embedding of `times.sort()` (server.py, line 175). -/
def sortNat (l : List Nat) : List Nat := l.foldr insSortedNat []

/-- The interval-building loop of `list_available_time` (server.py, lines
179-187): extend the current run while the next timestamp is exactly one
hour after its end, otherwise emit the run and start a new one; the
trailing run is always emitted. -/
def bGo (start endv : Nat) : List Nat → List (Nat × Nat)
  | [] => [(start, endv)]
  | c :: rest =>
    if c = endv + 3600 then bGo start c rest
    else (start, endv) :: bGo c c rest

/-- Interval construction over the sorted timestamps: empty input yields
no intervals, otherwise the run merger starts at the first timestamp. -/
def buildIntervals : List Nat → List (Nat × Nat)
  | [] => []
  | t :: rest => bGo t t rest

/-- The number of adjacent pairs of the timestamp list that are NOT an
exact one-hour step: the specification's merging condition says the
number of emitted intervals is one more than this. -/
def nonStepCount : List Nat → Nat
  | t :: t' :: rest => (if t' = t + 3600 then 0 else 1)
      + nonStepCount (t' :: rest)
  | _ => 0

/-- Embedding of `_format_interval` (utils.py, lines 216-230): the
`From ... To ...` skeleton, with timestamps rendered as their second
counts (the millisecond `strftime` rendering is injective on bucket
timestamps, so nothing of the interval structure is lost). -/
def formatInterval (s e : Nat) : String :=
  "From " ++ toString s ++ " To " ++ toString e

/-- Embedding of `LZEROServer.list_available_time` (server.py, lines
131-189): a missing station directory yields `[]`; otherwise scan the
tree for hour buckets, sort the collected timestamps and merge
consecutive hours into intervals. -/
def list_available_time (mkTime : Nat → Nat → Nat → Option Nat)
    (station : Option (List YearEntry)) : Except Unit (List String) :=
  match station with
  | none => .ok []
  | some years =>
    match collectTimes mkTime years with
    | .error err => .error err
    | .ok ts =>
      .ok ((buildIntervals (sortNat ts)).map
        (fun p => formatInterval p.1 p.2))

theorem bGo_length :
    ∀ (ts : List Nat) (s e : Nat),
      (bGo s e ts).length = 1 + nonStepCount (e :: ts) := by
  intro ts
  induction ts with
  | nil =>
    intro s e
    rfl
  | cons c rest ih =>
    intro s e
    rw [bGo, nonStepCount]
    by_cases hc : c = e + 3600
    · rw [if_pos hc, if_pos hc, ih s c]
      omega
    · rw [if_neg hc, if_neg hc, List.length_cons, ih c c]
      omega

/-- The scan tree for the C6 example: one year, one day, hour directories
a, b, c, f, g (hours 0, 1, 2, 5, 6). -/
def treeC6 : List YearEntry :=
  [⟨"2025", true,
    [⟨"184", true,
      [⟨"a", true⟩, ⟨"b", true⟩, ⟨"c", true⟩, ⟨"f", true⟩, ⟨"g", true⟩]⟩]⟩]

/-- Bucket datetime construction for the C6 example: hour h of the single
day maps to h*3600 seconds. -/
def mkTimeC6 : Nat → Nat → Nat → Option Nat :=
  fun _ _ h => some (3600 * h)

/-- C6: two consecutive hour buckets are merged into one run iff the later
is exactly one hour after the former - the number of emitted intervals is
one more than the number of non-step adjacencies; the station with hour
buckets at hours 0,1,2,5,6 of one day yields exactly the two intervals
0h-2h and 5h-6h; and a missing station directory yields an empty result,
not an error. -/
theorem listAvailableTimeSpec :
    buildIntervals [0, 3600, 7200, 18000, 21600]
      = [(0, 7200), (18000, 21600)]
    ∧ list_available_time mkTimeC6 (some treeC6)
        = .ok ["From 0 To 7200", "From 18000 To 21600"]
    ∧ (∀ mk : Nat → Nat → Nat → Option Nat,
        list_available_time mk none = .ok [])
    ∧ (∀ ts : List Nat, ts ≠ [] →
        (buildIntervals ts).length = 1 + nonStepCount ts) := by
  refine ⟨by decide, by decide, fun mk => rfl, ?_⟩
  intro ts hne
  cases ts with
  | nil => exact absurd rfl hne
  | cons t rest =>
    rw [buildIntervals]
    exact bGo_length rest t t

/-- C6 (witness): the interval-count identity instantiated on a two-entry
gap list. -/
theorem listAvailableTimeWitness :
    (buildIntervals [0, 7200]).length = 1 + nonStepCount [0, 7200] :=
  listAvailableTimeSpec.2.2.2 [0, 7200] (by decide)

/-- The scan tree for the C7 counterexample: a year directory named
"backup" (not an integer) containing a day directory with a recognised
hour subdirectory "a". -/
def treeC7 : List YearEntry :=
  [⟨"backup", true, [⟨"001", true, [⟨"a", true⟩]⟩]⟩]

/-- Archive for the C7 counterexample: every bucket file is present but
unreadable. -/
def fsC7 : Nat → FileState := fun _ => .unreadable

/-- C7 (counterexample): two data faults are NOT recovered locally.  An
availability scan over a year directory whose name is not an integer
(with a recognised hour subdirectory) escalates an error out of
`list_available_time` (the `int(year)` call raises), and a present but
unreadable archive file escalates an error out of `_get_pos_data` (the
`open` call raises after `os.path.isfile` succeeded). -/
theorem dataFaultCounterexample :
    collectTimes mkTimeC6 treeC7 = .error ()
    ∧ list_available_time mkTimeC6 (some treeC7) = .error ()
    ∧ fsC7 0 ≠ .absent
    ∧ get_pos_data fsC7 parseC5 0 0 = .error () := by
  refine ⟨by decide, by decide, by decide, by decide⟩

/-- Removing the unparsable lines from every readable file (the unit the
spec says is skipped). -/
def cleanFs (fs : Nat → FileState) (parse : String → Option Nat) :
    Nat → FileState :=
  fun b =>
    match fs b with
    | .readable ls => .readable (ls.filter (fun l => (parse l).isSome))
    | o => o

/-- Replacing one bucket's file state. -/
def patchFs (fs : Nat → FileState) (b : Nat) (st : FileState) :
    Nat → FileState :=
  fun c => if c = b then st else fs c

theorem filter_keep (parse : String → Option Nat) (s e : Nat) :
    ∀ ls : List String,
      (ls.filter (fun l => (parse l).isSome)).filter (keepLine parse s e)
        = ls.filter (keepLine parse s e) := by
  intro ls
  induction ls with
  | nil => rfl
  | cons l t ih =>
    cases hp : parse l with
    | none =>
      have h1 : (parse l).isSome = false := by rw [hp]; rfl
      have h2 : keepLine parse s e l = false := by simp [keepLine, hp]
      simp [List.filter_cons, h1, h2, ih]
    | some tm =>
      have h1 : (parse l).isSome = true := by rw [hp]; rfl
      simp [List.filter_cons, h1, ih]

/-- C7 (amended): the data faults that ARE recovered locally, each by
skipping exactly the offending unit: a record line whose time does not
parse contributes nothing (deleting all such lines leaves the output
unchanged), a missing archive file behaves exactly like an empty one, and
a non-directory entry or unrecognised hour-letter name is skipped by the
scan; however (see the counterexample) a present-but-unreadable file and
a non-integer year directory name escalate. -/
theorem dataFaultAmended :
    (∀ (fs : Nat → FileState) (parse : String → Option Nat) (s e : Nat),
      get_pos_data fs parse s e = get_pos_data (cleanFs fs parse) parse s e)
    ∧ (∀ (fs : Nat → FileState) (parse : String → Option Nat) (s e b : Nat),
        fs b = .absent →
        get_pos_data fs parse s e
          = get_pos_data (patchFs fs b (.readable [])) parse s e)
    ∧ (∀ (yname dname : String) (mk : Nat → Nat → Nat → Option Nat)
        (en : HourEntry) (rest : List HourEntry),
        en.isDir = false ∨ hourLookup en.name = none →
        collectHours yname dname mk (en :: rest)
          = collectHours yname dname mk rest)
    ∧ (∀ (yname : String) (mk : Nat → Nat → Nat → Option Nat)
        (d : DoyEntry) (rest : List DoyEntry), d.isDir = false →
        collectDoys yname mk (d :: rest) = collectDoys yname mk rest)
    ∧ (∀ (mk : Nat → Nat → Nat → Option Nat) (y : YearEntry)
        (rest : List YearEntry), y.isDir = false →
        collectTimes mk (y :: rest) = collectTimes mk rest) := by
  refine ⟨?_, ?_, ?_, ?_, ?_⟩
  · intro fs parse s e
    rw [get_pos_data, get_pos_data]
    have hcongr : ∀ c ∈ visitedSeconds s e,
        bucketResult fs parse s e c
          = bucketResult (cleanFs fs parse) parse s e c := by
      intro c _
      rw [bucketResult, bucketResult]
      cases hfs : fs (c / 3600) with
      | absent => rw [cleanFs, hfs]
      | unreadable => rw [cleanFs, hfs]
      | readable ls =>
        rw [cleanFs, hfs]
        show Except.ok (ls.filter (keepLine parse s e))
          = Except.ok ((ls.filter (fun l => (parse l).isSome)).filter
              (keepLine parse s e))
        rw [filter_keep parse s e ls]
    rw [mapE_congr hcongr]
  · intro fs parse s e b hb
    rw [get_pos_data, get_pos_data]
    have hcongr : ∀ c ∈ visitedSeconds s e,
        bucketResult fs parse s e c
          = bucketResult (patchFs fs b (.readable [])) parse s e c := by
      intro c _
      rw [bucketResult, bucketResult, patchFs]
      by_cases hcb : c / 3600 = b
      · rw [if_pos hcb, hcb, hb]
        rfl
      · rw [if_neg hcb]
    rw [mapE_congr hcongr]
  · intro yname dname mk en rest hskip
    rcases hskip with hdir | hlk
    · rw [collectHours, if_neg (by simp [hdir])]
    · by_cases hdir : en.isDir
      · rw [collectHours, if_pos hdir, hlk]
      · rw [collectHours, if_neg (by simp [hdir])]
  · intro yname mk d rest hdir
    rw [collectDoys, if_neg (by simp [hdir])]
  · intro mk y rest hdir
    rw [collectTimes, if_neg (by simp [hdir])]

/-- C7 (witness): the missing-file-equals-empty-file fact instantiated on
the C5 archive, whose bucket 0 is absent. -/
theorem dataFaultWitness :
    fsC5 0 = .absent
    ∧ get_pos_data fsC5 parseC5 3600 7200
        = get_pos_data (patchFs fsC5 0 (.readable [])) parseC5 3600 7200 :=
  ⟨by decide, dataFaultAmended.2.1 fsC5 parseC5 3600 7200 0 (by decide)⟩

/-- Python `str.upper()` restricted to the ASCII names used in commands. -/
def pyUpper (s : String) : String := String.mk (s.data.map Char.toUpper)

/-- Python `'\n'.join(lines)`. -/
def joinNl : List String → String
  | [] => ""
  | [l] => l
  | l :: rest => l ++ "\n" ++ joinNl rest

/-- Python `request.strip().split(',')`. -/
def pySplitComma (s : String) : List String :=
  (splitOnChar ',' (pyStrip s).data).map String.mk

/-- The six characters every error diagnosis of `_process_request` begins
with. -/
def errTag : List Char := ['E', 'R', 'R', 'O', 'R', ':']

/-- Whether `s` begins with the pattern `p`. -/
def beginsWith : List Char → List Char → Bool
  | [], _ => true
  | _ :: _, [] => false
  | a :: p, b :: s => if a = b then beginsWith p s else false

/-- The `parts[n]` access of the dispatcher (total, with the harmless ""
default: the faulty-count branches never reach it). -/
def argD (parts : List String) (n : Nat) : String := parts.getD n ""

/-- Embedding of `LZEROServer._process_request` (server.py, lines
222-259): split the stripped request on commas, uppercase the command and
dispatch.  The per-station archive tree (`treeOf`), bucket files
(`fsOf`) and the stdlib ISO parsers (`mkTime`, `iso`) are the explicit
server state; an exception escaping a handler (an unreadable file or a
scan fault) is the `.error` case, in which no response is sent. -/
def processRequest (stations : List String)
    (treeOf : String → Option (List YearEntry))
    (mkTime : Nat → Nat → Nat → Option Nat)
    (fsOf : String → Nat → FileState)
    (iso : String → Option Nat) (request : String) : Except Unit String :=
  let parts := pySplitComma request
  let command := pyUpper (parts.headD "")
  if command = "LIST_STATIONS" then
    .ok (joinNl stations ++ "\n")
  else if command = "GET_DATA" then
    if parts.length ≠ 4 then
      .ok "ERROR: GET_DATA requires station,start,end.\n"
    else
      match iso (argD parts 2), iso (argD parts 3) with
      | some s, some e =>
        match get_pos_data (fsOf (argD parts 1))
            (parse_line_time iso) s e with
        | .error err => .error err
        | .ok ls => .ok (joinNl ls ++ "\n")
      | _, _ => .ok "ERROR: Invalid datetime format.\n"
  else if command = "LIST_TIME" then
    if parts.length ≠ 2 then
      .ok "ERROR: LIST_TIME requires station.\n"
    else
      match list_available_time mkTime (treeOf (argD parts 1)) with
      | .error err => .error err
      | .ok ds => .ok (joinNl ds ++ "\n")
  else .ok ("ERROR: Unknown command " ++ command ++ ".\n")

/-- The fault conditions the claim lists for C8, written from the spec's
words with the same request decomposition: unknown command, GET_DATA
without exactly three arguments or with an unparsable timestamp,
LIST_TIME without exactly one argument. -/
def isBadRequest (iso : String → Option Nat) (request : String) : Bool :=
  let parts := pySplitComma request
  let command := pyUpper (parts.headD "")
  if command = "LIST_STATIONS" then false
  else if command = "GET_DATA" then
    if parts.length ≠ 4 then true
    else if (iso (argD parts 2)).isNone then true
    else if (iso (argD parts 3)).isNone then true
    else false
  else if command = "LIST_TIME" then
    if parts.length ≠ 2 then true else false
  else true

theorem beginsWith_skip (m : Char) :
    ∀ p : List Char, m ∉ p → ∀ (L t : List Char),
      beginsWith p (L ++ m :: t) = true → beginsWith p L = true := by
  intro p
  induction p with
  | nil =>
    intro _ L t _
    rfl
  | cons a p ih =>
    intro hm L t hbw
    cases L with
    | nil =>
      exfalso
      rw [List.nil_append, beginsWith] at hbw
      by_cases ham : a = m
      · exact hm (ham ▸ List.mem_cons_self a p)
      · rw [if_neg ham] at hbw
        exact Bool.noConfusion hbw
    | cons b L' =>
      rw [List.cons_append, beginsWith] at hbw
      rw [beginsWith]
      by_cases hab : a = b
      · rw [if_pos hab] at hbw ⊢
        exact ih (fun hmp => hm (List.mem_cons_of_mem a hmp)) L' t hbw
      · rw [if_neg hab] at hbw
        exact Bool.noConfusion hbw

theorem joinNl_cons_data (l : String) (rest : List String) :
    ∃ T, (joinNl (l :: rest) ++ "\n").data = l.data ++ '\n' :: T := by
  cases rest with
  | nil =>
    refine ⟨[], ?_⟩
    rw [joinNl, String.data_append]
  | cons r rs =>
    refine ⟨(joinNl (r :: rs)).data ++ "\n".data, ?_⟩
    have hj : joinNl (l :: r :: rs) = l ++ "\n" ++ joinNl (r :: rs) := rfl
    rw [hj, String.data_append, String.data_append, String.data_append]
    simp [List.append_assoc]

theorem cleanJoin (ls : List String)
    (h : ∀ l ∈ ls, beginsWith errTag l.data = false) :
    beginsWith errTag (joinNl ls ++ "\n").data = false := by
  cases ls with
  | nil => decide
  | cons l rest =>
    obtain ⟨T, hT⟩ := joinNl_cons_data l rest
    rw [hT]
    cases hbw : beginsWith errTag (l.data ++ '\n' :: T) with
    | false => rfl
    | true =>
      exfalso
      have hpre := beginsWith_skip '\n' errTag (by decide) l.data T hbw
      rw [h l (List.mem_cons_self l rest)] at hpre
      exact Bool.noConfusion hpre

theorem formatInterval_not_err (a b : Nat) :
    beginsWith errTag (formatInterval a b).data = false := rfl

theorem err_unknown_tag (command : String) :
    beginsWith errTag
      ("ERROR: Unknown command " ++ command ++ ".\n").data = true := rfl

theorem lat_lines (mk : Nat → Nat → Nat → Option Nat)
    (t : Option (List YearEntry)) (ds : List String)
    (h : list_available_time mk t = .ok ds) :
    ∀ d ∈ ds, ∃ a b, d = formatInterval a b := by
  intro d hd
  cases t with
  | none =>
    rw [list_available_time] at h
    cases Except.ok.inj h
    exact absurd hd (List.not_mem_nil d)
  | some years =>
    rw [list_available_time] at h
    cases hct : collectTimes mk years with
    | error err =>
      rw [hct] at h
      exact absurd h (by simp)
    | ok ts =>
      rw [hct] at h
      cases Except.ok.inj h
      rcases List.mem_map.mp hd with ⟨p, _, rfl⟩
      exact ⟨p.1, p.2, rfl⟩

theorem get_pos_data_ok_mem (fs : Nat → FileState)
    (parse : String → Option Nat) (s e : Nat) (out : List String)
    (h : get_pos_data fs parse s e = .ok out) :
    ∀ l ∈ out, ∃ b ls, fs b = .readable ls ∧ l ∈ ls := by
  intro l hl
  rw [get_pos_data] at h
  cases hm : mapE (bucketResult fs parse s e) (visitedSeconds s e) with
  | error err =>
    rw [hm] at h
    exact absurd h (by simp [Except.map])
  | ok lss =>
    rw [hm] at h
    simp only [Except.map] at h
    cases Except.ok.inj h
    rcases List.mem_flatten.mp hl with ⟨ls_i, hin, hlin⟩
    rcases mapE_ok_mem hm ls_i hin with ⟨c, _, hbr⟩
    rw [bucketResult] at hbr
    cases hfs : fs (c / 3600) with
    | absent =>
      rw [hfs] at hbr
      cases Except.ok.inj hbr
      exact absurd hlin (List.not_mem_nil l)
    | unreadable =>
      rw [hfs] at hbr
      exact absurd hbr (by simp)
    | readable ls =>
      rw [hfs] at hbr
      cases Except.ok.inj hbr
      exact ⟨c / 3600, ls, hfs, List.mem_of_mem_filter hlin⟩

/-- C8 (amended): a response line of `_process_request` begins with
`ERROR:` exactly when the request is faulty (unknown command, GET_DATA
without exactly three arguments or with an unparsable timestamp,
LIST_TIME without exactly one argument) - provided no station name and no
stored archive line itself begins with `ERROR:` (see the counterexample:
the dispatcher echoes station names verbatim). -/
theorem processRequestErrorIff (stations : List String)
    (treeOf : String → Option (List YearEntry))
    (mkTime : Nat → Nat → Nat → Option Nat)
    (fsOf : String → Nat → FileState) (iso : String → Option Nat)
    (request r : String)
    (hstations : ∀ st ∈ stations, beginsWith errTag st.data = false)
    (hfiles : ∀ stn b ls, fsOf stn b = .readable ls →
      ∀ l ∈ ls, beginsWith errTag l.data = false)
    (hok : processRequest stations treeOf mkTime fsOf iso request = .ok r) :
    beginsWith errTag r.data = true ↔ isBadRequest iso request = true := by
  simp only [processRequest] at hok
  simp only [isBadRequest]
  by_cases h1 :
      pyUpper ((pySplitComma request).headD "") = "LIST_STATIONS"
  · rw [if_pos h1] at hok
    rw [if_pos h1]
    cases Except.ok.inj hok
    rw [cleanJoin stations hstations]
  · rw [if_neg h1] at hok
    rw [if_neg h1]
    by_cases h2 : pyUpper ((pySplitComma request).headD "") = "GET_DATA"
    · rw [if_pos h2] at hok
      rw [if_pos h2]
      by_cases h3 : (pySplitComma request).length ≠ 4
      · rw [if_pos h3] at hok
        rw [if_pos h3]
        cases Except.ok.inj hok
        exact ⟨fun _ => rfl, fun _ => by decide⟩
      · rw [if_neg h3] at hok
        rw [if_neg h3]
        cases hia : iso (argD (pySplitComma request) 2) with
        | none =>
          rw [hia] at hok
          rw [if_pos (show (none : Option Nat).isNone = true from rfl)]
          cases Except.ok.inj hok
          exact ⟨fun _ => rfl, fun _ => by decide⟩
        | some sdt =>
          rw [hia] at hok
          rw [if_neg (show ¬(some sdt).isNone = true from by simp)]
          cases hib : iso (argD (pySplitComma request) 3) with
          | none =>
            rw [hib] at hok
            rw [if_pos (show (none : Option Nat).isNone = true from rfl)]
            cases Except.ok.inj hok
            exact ⟨fun _ => rfl, fun _ => by decide⟩
          | some edt =>
            rw [hib] at hok
            rw [if_neg (show ¬(some edt).isNone = true from by simp)]
            have hok2 :
                (match get_pos_data (fsOf (argD (pySplitComma request) 1))
                    (parse_line_time iso) sdt edt with
                  | Except.error err => Except.error err
                  | Except.ok ls => Except.ok (joinNl ls ++ "
"))
                  = Except.ok r := hok
            clear hok
            cases hgp : get_pos_data (fsOf (argD (pySplitComma request) 1))
                (parse_line_time iso) sdt edt with
            | error err =>
              rw [hgp] at hok2
              exact absurd hok2 (by simp)
            | ok ls =>
              rw [hgp] at hok2
              cases Except.ok.inj hok2
              have hclean : ∀ l ∈ ls, beginsWith errTag l.data = false := by
                intro l hli
                rcases get_pos_data_ok_mem _ _ _ _ ls hgp l hli with
                  ⟨b, lsf, hfs, hlf⟩
                exact hfiles _ b lsf hfs l hlf
              rw [cleanJoin ls hclean]
    · rw [if_neg h2] at hok
      rw [if_neg h2]
      by_cases h4 : pyUpper ((pySplitComma request).headD "") = "LIST_TIME"
      · rw [if_pos h4] at hok
        rw [if_pos h4]
        by_cases h5 : (pySplitComma request).length ≠ 2
        · rw [if_pos h5] at hok
          rw [if_pos h5]
          cases Except.ok.inj hok
          exact ⟨fun _ => rfl, fun _ => by decide⟩
        · rw [if_neg h5] at hok
          rw [if_neg h5]
          cases hlat : list_available_time mkTime
              (treeOf (argD (pySplitComma request) 1)) with
          | error err =>
            rw [hlat] at hok
            exact absurd hok (by simp)
          | ok ds =>
            rw [hlat] at hok
            cases Except.ok.inj hok
            have hclean : ∀ d ∈ ds, beginsWith errTag d.data = false := by
              intro d hdin
              rcases lat_lines mkTime _ ds hlat d hdin with ⟨a, b, rfl⟩
              exact formatInterval_not_err a b
            rw [cleanJoin ds hclean]
      · rw [if_neg h4] at hok
        rw [if_neg h4]
        cases Except.ok.inj hok
        exact ⟨fun _ => rfl, fun _ => err_unknown_tag _⟩

/-- An ISO parser that accepts nothing (concrete instance for closed
evaluations). -/
def isoNone : String → Option Nat := fun _ => none

/-- A station-tree map with no station directories. -/
def treeNone : String → Option (List YearEntry) := fun _ => none

/-- An archive with no files at all. -/
def fsNone : String → Nat → FileState := fun _ _ => .absent

/-- C8 (counterexample): the claim says only faulty requests yield a
response beginning with `ERROR:`; but `LIST_STATIONS` - a recognised,
well-formed command - echoes station directory names verbatim, so an
archive root containing a directory named "ERROR: fake" produces a
response beginning with `ERROR:`. -/
theorem processRequestCounterexample :
    processRequest ["ERROR: fake"] treeNone mkTimeC6 fsNone isoNone
        "LIST_STATIONS"
      = .ok "ERROR: fake\n"
    ∧ beginsWith errTag ("ERROR: fake\n" : String).data = true
    ∧ isBadRequest isoNone "LIST_STATIONS" = false := by
  refine ⟨by decide, by decide, by decide⟩

/-- C8 (witness): the error-iff equivalence instantiated on an unknown
command against an empty archive. -/
theorem processRequestWitness :
    beginsWith errTag
        (("ERROR: Unknown command " ++ pyUpper "FOO" ++ ".\n") :
          String).data = true
      ↔ isBadRequest isoNone "FOO" = true :=
  processRequestErrorIff [] treeNone mkTimeC6 fsNone isoNone "FOO"
    ("ERROR: Unknown command " ++ pyUpper "FOO" ++ ".\n")
    (fun st hst => absurd hst (List.not_mem_nil st))
    (fun _ _ _ hfs => FileState.noConfusion hfs)
    (by decide)

/-- Embedding of the client list deserialisation of
`LZEROClient.list_available_stations` / `list_available_time` (client.py,
lines 76-77 and 91-92): `lines = response.strip().split('\n');
return lines if lines != [''] else []`. -/
def clientParseList (response : String) : List String :=
  let lines := (splitOnChar '\n' (pyStrip response).data).map String.mk
  if lines = [""] then [] else lines

theorem lastNl (s : String) :
    ((s ++ "\n")).data.getLast? = some '\n' := by
  rw [String.data_append, List.getLast?_append]
  rfl

theorem lastDotNl (s : String) :
    ((s ++ ".\n")).data.getLast? = some '\n' := by
  rw [String.data_append, List.getLast?_append]
  rfl

/-- C9: every response of `_process_request` ends with a trailing newline;
an empty station list serialises to exactly a single newline; and the
client's list deserialisation maps that single-newline response back to
the empty list (so serialise-then-deserialise of the empty list is the
empty list, not a list containing one empty string). -/
theorem responseNewline :
    (∀ (stations : List String) (treeOf : String → Option (List YearEntry))
      (mkTime : Nat → Nat → Nat → Option Nat)
      (fsOf : String → Nat → FileState) (iso : String → Option Nat)
      (request r : String),
      processRequest stations treeOf mkTime fsOf iso request = .ok r →
      r.data.getLast? = some '\n')
    ∧ (∀ (treeOf : String → Option (List YearEntry))
        (mkTime : Nat → Nat → Nat → Option Nat)
        (fsOf : String → Nat → FileState) (iso : String → Option Nat),
        processRequest [] treeOf mkTime fsOf iso "LIST_STATIONS" = .ok "\n")
    ∧ clientParseList "\n" = []
    ∧ clientParseList (joinNl [] ++ "\n") = [] := by
  refine ⟨?_, ?_, by decide, by decide⟩
  · intro stations treeOf mkTime fsOf iso request r hok
    simp only [processRequest] at hok
    by_cases h1 :
        pyUpper ((pySplitComma request).headD "") = "LIST_STATIONS"
    · rw [if_pos h1] at hok
      cases Except.ok.inj hok
      exact lastNl _
    · rw [if_neg h1] at hok
      by_cases h2 : pyUpper ((pySplitComma request).headD "") = "GET_DATA"
      · rw [if_pos h2] at hok
        by_cases h3 : (pySplitComma request).length ≠ 4
        · rw [if_pos h3] at hok
          cases Except.ok.inj hok
          decide
        · rw [if_neg h3] at hok
          cases hia : iso (argD (pySplitComma request) 2) with
          | none =>
            rw [hia] at hok
            cases Except.ok.inj hok
            decide
          | some sdt =>
            rw [hia] at hok
            cases hib : iso (argD (pySplitComma request) 3) with
            | none =>
              rw [hib] at hok
              cases Except.ok.inj hok
              decide
            | some edt =>
              rw [hib] at hok
              have hok2 :
                  (match get_pos_data (fsOf (argD (pySplitComma request) 1))
                      (parse_line_time iso) sdt edt with
                    | Except.error err => Except.error err
                    | Except.ok ls => Except.ok (joinNl ls ++ "\n"))
                    = Except.ok r := hok
              clear hok
              cases hgp : get_pos_data (fsOf (argD (pySplitComma request) 1))
                  (parse_line_time iso) sdt edt with
              | error err =>
                rw [hgp] at hok2
                exact absurd hok2 (by simp)
              | ok ls =>
                rw [hgp] at hok2
                cases Except.ok.inj hok2
                exact lastNl _
      · rw [if_neg h2] at hok
        by_cases h4 : pyUpper ((pySplitComma request).headD "") = "LIST_TIME"
        · rw [if_pos h4] at hok
          by_cases h5 : (pySplitComma request).length ≠ 2
          · rw [if_pos h5] at hok
            cases Except.ok.inj hok
            decide
          · rw [if_neg h5] at hok
            cases hlat : list_available_time mkTime
                (treeOf (argD (pySplitComma request) 1)) with
            | error err =>
              rw [hlat] at hok
              exact absurd hok (by simp)
            | ok ds =>
              rw [hlat] at hok
              cases Except.ok.inj hok
              exact lastNl _
        · rw [if_neg h4] at hok
          cases Except.ok.inj hok
          exact lastDotNl _
  · intro treeOf mkTime fsOf iso
    rfl

/-- C9 (witness): the trailing-newline fact instantiated on an unknown
command response. -/
theorem responseNewlineWitness :
    ("ERROR: Unknown command FOO.\n" : String).data.getLast? = some '\n' :=
  responseNewline.1 [] treeNone mkTimeC6 fsNone isoNone "FOO"
    "ERROR: Unknown command FOO.\n" (by decide)

/-- C10: a GET_DATA request whose two timestamps parse but with start
strictly greater than end yields no ERROR line: the hour loop performs
zero iterations, the retrieved line list is empty, and the response is
exactly a single newline. -/
theorem getDataEmptyRange (stations : List String)
    (treeOf : String → Option (List YearEntry))
    (mkTime : Nat → Nat → Nat → Option Nat)
    (fsOf : String → Nat → FileState) (iso : String → Option Nat)
    (request st a b : String) (s e : Nat)
    (hparts : pySplitComma request = ["GET_DATA", st, a, b])
    (hisoa : iso a = some s) (hisob : iso b = some e) (hlt : e < s) :
    processRequest stations treeOf mkTime fsOf iso request = .ok "\n"
    ∧ visitedSeconds s e = []
    ∧ get_pos_data (fsOf st) (parse_line_time iso) s e = .ok []
    ∧ beginsWith errTag ("\n" : String).data = false := by
  have hvs : visitedSeconds s e = [] := by
    rw [visitedSeconds, if_neg (by omega)]
  have hgp : get_pos_data (fsOf st) (parse_line_time iso) s e = .ok [] := by
    rw [get_pos_data, hvs]
    rfl
  refine ⟨?_, hvs, hgp, by decide⟩
  have step1 : processRequest stations treeOf mkTime fsOf iso request
      = match get_pos_data (fsOf st) (parse_line_time iso) s e with
        | Except.error err => Except.error err
        | Except.ok ls => Except.ok (joinNl ls ++ "\n") := by
    simp only [processRequest, hparts]
    have h0 : (["GET_DATA", st, a, b] : List String).headD ""
        = "GET_DATA" := rfl
    rw [h0]
    rw [if_neg (by decide), if_pos (by decide), if_neg (by simp)]
    have h2 : argD ["GET_DATA", st, a, b] 2 = a := rfl
    have h3 : argD ["GET_DATA", st, a, b] 3 = b := rfl
    have h1 : argD ["GET_DATA", st, a, b] 1 = st := rfl
    rw [h2, h3, h1, hisoa, hisob]
  rw [step1, hgp]
  rfl

/-- ISO parser for the C10 witness: "A" parses to 7200 s, "B" to 0 s. -/
def isoC10 : String → Option Nat :=
  fun x => if x = "A" then some 7200 else if x = "B" then some 0 else none

/-- C10 (witness): the empty-range behaviour instantiated on the request
`GET_DATA,STA,A,B` with start 7200 s and end 0 s. -/
theorem getDataEmptyRangeWitness :
    processRequest [] treeNone mkTimeC6 fsNone isoC10 "GET_DATA,STA,A,B"
      = .ok "\n"
    ∧ visitedSeconds 7200 0 = []
    ∧ get_pos_data (fsNone "STA") (parse_line_time isoC10) 7200 0 = .ok []
    ∧ beginsWith errTag ("\n" : String).data = false :=
  getDataEmptyRange [] treeNone mkTimeC6 fsNone isoC10 "GET_DATA,STA,A,B"
    "STA" "A" "B" 7200 0 (by decide) (by decide) (by decide) (by decide)

/-- The parsed data set of `LZEROClient._parse_response` (client.py, lines
120-170): one ordered sequence per named field. -/
structure ParsedData where
  datetime : List String
  lat : List ℚ
  lon : List ℚ
  h : List ℚ
  fix : List Int
  nsat : List Int
  dx : List ℚ
  dy : List ℚ
  dz : List ℚ
  vx : List ℚ
  vy : List ℚ
  vz : List ℚ
  pdop : List ℚ
  temp : List ℚ
deriving DecidableEq

/-- The initial empty result dictionary of `_parse_response`. -/
def emptyParsed : ParsedData :=
  ⟨[], [], [], [], [], [], [], [], [], [], [], [], [], []⟩

/-- Python `float()` on the unsigned decimal literals appearing in POS
records (an integer part, optionally a '.' and a fraction part); other
token forms raise `ValueError` (`none`). -/
def pyFloatTok (s : String) : Option ℚ :=
  match (splitOnChar '.' s.data).map String.mk with
  | [a] => (pyIntName a).map (fun n => (n : ℚ))
  | [a, b] =>
    match pyIntName a, pyIntName b with
    | some n, some m =>
      some ((n : ℚ) + (m : ℚ) / ((10 : ℚ) ^ b.length))
    | _, _ => none
  | _ => none

/-- Python `int()` on an unsigned decimal record token. -/
def pyIntTok (s : String) : Option Int := (pyIntName s).map Int.ofNat

/-- One iteration of the line loop of `_parse_response` (client.py, lines
147-169): strip the line; skip it when empty or starting with `ERROR`;
otherwise split on whitespace and append field by field in source order -
`datetime` first, then the numeric conversions - where a missing token
(`IndexError`) or failed conversion (`ValueError`) aborts the line,
KEEPING the appends already performed (the `try` block appends as it
goes and `continue` does not roll back). -/
def parse_response_line (st : ParsedData) (line : String) : ParsedData :=
  let l := pyStrip line
  if l = "" then st
  else if beginsWith ("ERROR" : String).data l.data then st
  else
    let parts := pySplit l
    let p0 := replSlash (parts.getD 0 "")
    match parts.get? 1 with
    | none => st
    | some p1 =>
      let st := { st with datetime := st.datetime ++ [p0 ++ "T" ++ p1] }
      match (parts.get? 2).bind pyFloatTok with
      | none => st
      | some v =>
        let st := { st with lat := st.lat ++ [v] }
        match (parts.get? 3).bind pyFloatTok with
        | none => st
        | some v =>
          let st := { st with lon := st.lon ++ [v] }
          match (parts.get? 4).bind pyFloatTok with
          | none => st
          | some v =>
            let st := { st with h := st.h ++ [v] }
            match (parts.get? 5).bind pyIntTok with
            | none => st
            | some v =>
              let st := { st with fix := st.fix ++ [v] }
              match (parts.get? 6).bind pyIntTok with
              | none => st
              | some v =>
                let st := { st with nsat := st.nsat ++ [v] }
                match (parts.get? 7).bind pyFloatTok with
                | none => st
                | some v =>
                  let st := { st with dx := st.dx ++ [v] }
                  match (parts.get? 8).bind pyFloatTok with
                  | none => st
                  | some v =>
                    let st := { st with dy := st.dy ++ [v] }
                    match (parts.get? 9).bind pyFloatTok with
                    | none => st
                    | some v =>
                      let st := { st with dz := st.dz ++ [v] }
                      match (parts.get? 10).bind pyFloatTok with
                      | none => st
                      | some v =>
                        let st := { st with vx := st.vx ++ [v] }
                        match (parts.get? 11).bind pyFloatTok with
                        | none => st
                        | some v =>
                          let st := { st with vy := st.vy ++ [v] }
                          match (parts.get? 12).bind pyFloatTok with
                          | none => st
                          | some v =>
                            let st := { st with vz := st.vz ++ [v] }
                            match (parts.get? 13).bind pyFloatTok with
                            | none => st
                            | some v =>
                              let st := { st with pdop := st.pdop ++ [v] }
                              match (parts.get? 14).bind pyFloatTok with
                              | none => st
                              | some v =>
                                { st with temp := st.temp ++ [v] }

/-- Embedding of `LZEROClient._parse_response` (client.py, lines
120-170): fold the line loop over `response.strip().split('\n')`. -/
def parse_response (response : String) : ParsedData :=
  ((splitOnChar '\n' (pyStrip response).data).map String.mk).foldl
    parse_response_line emptyParsed

/-- The C2 failing input: one well-formed 15-token line followed by a
line with only 10 tokens. -/
def respC2 : String :=
  "2025/07/03 12:00:00.000 45.0 13.0 100.0 1 7 0.1 0.2 0.3 0.4 0.5 0.6 1.2 20.5\n2025/07/03 12:00:01.000 45.0 13.0 100.0 1 7 0.1 0.2 0.3"

/-- C2: evaluation of the record parser at the failing input.  The claim
(and the spec's invariant) says a line failing the field-count check
contributes no entry to any field, so this response should yield exactly
one entry per field; but `_parse_response` appends as it converts and the
`except ... continue` does not roll back, so the 10-token line leaves
`datetime` through `dz` with two entries while `vx` through `temp` keep
one - the field sequences end up with unequal lengths. -/
theorem parseResponseLengthBug :
    (parse_response respC2).datetime.length = 2
    ∧ (parse_response respC2).lat.length = 2
    ∧ (parse_response respC2).dz.length = 2
    ∧ (parse_response respC2).vx.length = 1
    ∧ (parse_response respC2).temp.length = 1
    ∧ (parse_response respC2).datetime.length
        ≠ (parse_response respC2).temp.length := by
  refine ⟨by decide, by decide, by decide, by decide, by decide, by decide⟩
